import Mathlib

/-!
# Verification of the Project Planner managers

Shallow embedding of `project_board_base.py`, `team_base.py` and
`user_base.py`. Python dicts keyed by string ids are modelled as
association lists with in-place replacement on key collision (matching
dict assignment semantics); request strings are modelled after parsing:
an `Option Req` where `none` stands for an input on which `json.loads`
or a required-field access would raise. Operations return
`Except String (State × Resp)`: the `.error` case is an exception
escaping the Python method (no surrounding `try`), while `.ok` carries
the (possibly unchanged) in-memory store and the serialized response.
Fresh `uuid4` identifiers and `datetime.now()` stamps are passed in as
explicit parameters.
-/

set_option maxHeartbeats 1000000

namespace Planner

/-- A task record, as built by `ProjectBoardBase.add_task`. -/
structure Task where
  id : String
  title : String
  description : String
  user_id : String
  creation_time : String
  status : String
deriving DecidableEq

/-- A board record, as built by `ProjectBoardBase.create_board`.
`end_time` is `none` until `close_board` stamps it (the Python dict
lacks the key before closing). -/
structure Board where
  name : String
  description : String
  team_id : String
  creation_time : String
  status : String
  tasks : List Task
  end_time : Option String
deriving DecidableEq

/-- The in-memory `self.boards` dict: board id to record. -/
abbrev BoardStore := List (String × Board)

/-- Dict lookup: first binding of the key wins. -/
def dlookup {α : Type} : List (String × α) → String → Option α
  | [], _ => none
  | (k, v) :: rest, id => if k = id then some v else dlookup rest id

/-- Dict assignment `d[k] = v`: replaces the first binding of `k` in
place, or appends a new binding at the end (Python dicts preserve
insertion order). -/
def dictInsert {α : Type} : List (String × α) → String → α → List (String × α)
  | [], k, v => [(k, v)]
  | (k', v') :: rest, k, v =>
      if k' = k then (k, v) :: rest else (k', v') :: dictInsert rest k v

/-- Serialized responses of the three managers. Each constructor is one
of the JSON shapes the Python code `json.dumps`-es. -/
inductive Resp where
  | err (msg : String)
  | okId (id : String)
  | success
  | boardSummaries (l : List (String × String))
  | outFile (path : String) (content : String)
  | teamSummaries (l : List (String × String × String × String))
  | teamInfo (name description creation_time admin : String)
  | memberListing (l : List (String × String × String))
deriving DecidableEq

/-- Parsed request of `create_board`. -/
structure CreateBoardReq where
  name : String
  description : String
  team_id : String
  creation_time : String
deriving DecidableEq

/-- Parsed request of `close_board` / `export_board` (a single id). -/
structure IdReq where
  id : String
deriving DecidableEq

/-- Parsed request of `add_task`. -/
structure AddTaskReq where
  title : String
  description : String
  user_id : String
  creation_time : String
  board_id : String
deriving DecidableEq

/-- Parsed request of `update_task_status`. -/
structure UpdateTaskStatusReq where
  id : String
  status : String
deriving DecidableEq

/-- `ProjectBoardBase.create_board`. The whole body sits in
`try/except`, so every outcome is returned (`.ok`), never raised;
`freshId` is the generated `uuid4`. -/
def create_board (boards : BoardStore) (req : Option CreateBoardReq)
    (freshId : String) : Except String (BoardStore × Resp) :=
  match req with
  | none => .ok (boards, .err "Failed to create board: malformed request")
  | some d =>
    if 64 < d.name.length then
      .ok (boards, .err "name exceeds 64 characters")
    else if 128 < d.description.length then
      .ok (boards, .err "description exceeds 128 characters")
    else if boards.any (fun kv => kv.2.name == d.name && kv.2.team_id == d.team_id) then
      .ok (boards, .err "board name must be unique for a team")
    else
      .ok (dictInsert boards freshId
            ⟨d.name, d.description, d.team_id, d.creation_time, "OPEN", [], none⟩,
           .okId freshId)

/-- `ProjectBoardBase.close_board`. No `try/except`: a malformed request
raises (modelled by `.error`); `now` is `datetime.now().isoformat()`. -/
def close_board (boards : BoardStore) (req : Option IdReq) (now : String) :
    Except String (BoardStore × Resp) :=
  match req with
  | none => .error "close_board: json.loads/KeyError raised"
  | some d =>
    match dlookup boards d.id with
    | none => .ok (boards, .err "board not found")
    | some b =>
      if b.tasks.any (fun t => t.status != "COMPLETE") then
        .ok (boards, .err "cannot close board with incomplete tasks")
      else
        .ok (dictInsert boards d.id { b with status := "CLOSED", end_time := some now },
             .success)

/-- `ProjectBoardBase.add_task`. Body wrapped in `try/except`:
never raises. -/
def add_task (boards : BoardStore) (req : Option AddTaskReq)
    (freshId : String) : Except String (BoardStore × Resp) :=
  match req with
  | none => .ok (boards, .err "Failed to add task: malformed request")
  | some d =>
    if 64 < d.title.length then
      .ok (boards, .err "title exceeds 64 characters")
    else if 128 < d.description.length then
      .ok (boards, .err "description exceeds 128 characters")
    else
      match dlookup boards d.board_id with
      | none => .ok (boards, .err "board not found")
      | some b =>
        if b.status != "OPEN" then
          .ok (boards, .err "can only add tasks to an OPEN board")
        else if b.tasks.any (fun t => t.title == d.title) then
          .ok (boards, .err "task title must be unique for a board")
        else
          .ok (dictInsert boards d.board_id
                { b with tasks := b.tasks ++
                    [⟨freshId, d.title, d.description, d.user_id, d.creation_time, "OPEN"⟩] },
               .okId freshId)

/-- Helper of `update_task_status`: set the status of the first task in
the list whose id matches, `none` when no task matches. -/
def setFirstTask : List Task → String → String → Option (List Task)
  | [], _, _ => none
  | t :: ts, tid, st =>
      if t.id = tid then some ({ t with status := st } :: ts)
      else (setFirstTask ts tid st).map (t :: ·)

/-- Helper of `update_task_status`: walk the boards in insertion order
and rewrite the first task whose id matches, `none` when no board
contains it. -/
def updateBoards : BoardStore → String → String → Option BoardStore
  | [], _, _ => none
  | (k, b) :: rest, tid, st =>
      match setFirstTask b.tasks tid st with
      | some ts => some ((k, { b with tasks := ts }) :: rest)
      | none => (updateBoards rest tid st).map ((k, b) :: ·)

/-- `ProjectBoardBase.update_task_status`. No `try/except`; scans all
boards' task lists and overwrites the first matching task's status
unconditionally. -/
def update_task_status (boards : BoardStore) (req : Option UpdateTaskStatusReq) :
    Except String (BoardStore × Resp) :=
  match req with
  | none => .error "update_task_status: json.loads/KeyError raised"
  | some d =>
    match updateBoards boards d.id d.status with
    | some boards' => .ok (boards', .success)
    | none => .ok (boards, .err "task not found")

/-- `ProjectBoardBase.list_boards`. Read-only; keeps only OPEN boards of
the given team, in insertion order. -/
def list_boards (boards : BoardStore) (req : Option IdReq) :
    Except String (BoardStore × Resp) :=
  match req with
  | none => .error "list_boards: json.loads/KeyError raised"
  | some d =>
    .ok (boards, .boardSummaries
          ((boards.filter (fun kv => kv.2.team_id == d.id && kv.2.status == "OPEN")).map
            (fun kv => (kv.1, kv.2.name))))

/-- The plain-text rendering `export_board` writes to its side file. -/
def exportText (b : Board) : String :=
  "Board Name: " ++ b.name ++ "\n" ++
  "Description: " ++ b.description ++ "\n" ++
  "Creation Time: " ++ b.creation_time ++ "\n" ++
  "Status: " ++ b.status ++ "\n" ++
  "Tasks:\n" ++
  (b.tasks.foldl (fun acc t =>
    acc ++ "\tTask Title: " ++ t.title ++ "\n" ++
    "\tDescription: " ++ t.description ++ "\n" ++
    "\tAssigned User: " ++ t.user_id ++ "\n" ++
    "\tCreation Time: " ++ t.creation_time ++ "\n" ++
    "\tStatus: " ++ t.status ++ "\n\n") "")

/-- `ProjectBoardBase.export_board`. The file write is modelled by
returning the path and content; the board store is untouched. -/
def export_board (boards : BoardStore) (req : Option IdReq) :
    Except String (BoardStore × Resp) :=
  match req with
  | none => .error "export_board: json.loads/KeyError raised"
  | some d =>
    match dlookup boards d.id with
    | none => .ok (boards, .err "board not found")
    | some b => .ok (boards, .outFile ("out/" ++ d.id ++ ".txt") (exportText b))

/-- One invocation of a `ProjectBoardBase` operation together with its
nondeterministic inputs (fresh uuid, current time). -/
inductive BOp where
  | create (req : Option CreateBoardReq) (freshId : String)
  | close (req : Option IdReq) (now : String)
  | addTask (req : Option AddTaskReq) (freshId : String)
  | updStatus (req : Option UpdateTaskStatusReq)
  | listB (req : Option IdReq)
  | exportB (req : Option IdReq)
deriving DecidableEq

/-- Run one board operation. -/
def runBOp (boards : BoardStore) : BOp → Except String (BoardStore × Resp)
  | .create req fid => create_board boards req fid
  | .close req now => close_board boards req now
  | .addTask req fid => add_task boards req fid
  | .updStatus req => update_task_status boards req
  | .listB req => list_boards boards req
  | .exportB req => export_board boards req

/-- State after one board operation; an escaping exception leaves the
in-memory dict as it was (every operation that raises does so before
mutating). -/
def applyBOp (boards : BoardStore) (op : BOp) : BoardStore :=
  match runBOp boards op with
  | .ok (boards', _) => boards'
  | .error _ => boards

/-- State after a sequence of board operations. -/
def applyBOps : BoardStore → List BOp → BoardStore
  | s, [] => s
  | s, op :: ops => applyBOps (applyBOp s op) ops

/-- `uuid4` freshness assumption for one operation: a generated board id
does not collide with an existing key. -/
def freshOk (boards : BoardStore) : BOp → Bool
  | .create _ fid => (dlookup boards fid).isNone
  | _ => true

/-- `uuid4` freshness along a whole operation sequence. -/
def freshTrace : BoardStore → List BOp → Bool
  | _, [] => true
  | s, op :: ops => freshOk s op && freshTrace (applyBOp s op) ops

example : applyBOps [] [.create (some ⟨"B", "d", "t1", "T0"⟩) "b1"] =
    [("b1", ⟨"B", "d", "t1", "T0", "OPEN", [], none⟩)] := by decide

/-- A user record, as built by `UserBase.create_user`. -/
structure User where
  name : String
  display_name : String
  creation_time : String
deriving DecidableEq

/-- The in-memory `self.users` dict: user id to record. `TeamBase` loads
the same document read-only to validate member ids. -/
abbrev UserStore := List (String × User)

/-- A team record, as built by `TeamBase.create_team`. -/
structure Team where
  name : String
  description : String
  creation_time : String
  admin : String
  users : List String
deriving DecidableEq

/-- The in-memory `self.teams` dict: team id to record. -/
abbrev TeamStore := List (String × Team)

/-- Parsed request of `create_team`. -/
structure CreateTeamReq where
  name : String
  description : String
  admin : String
deriving DecidableEq

/-- The `"team"` object of an `update_team` request: `dict.update`
applies exactly the keys present, so each known field is optional. -/
structure TeamDetails where
  name : Option String
  description : Option String
  creation_time : Option String
  admin : Option String
  users : Option (List String)
deriving DecidableEq

/-- Parsed request of `update_team`. -/
structure UpdateTeamReq where
  id : String
  team : TeamDetails
deriving DecidableEq

/-- Parsed request of `add_users_to_team` / `remove_users_from_team`. -/
structure TeamUsersReq where
  id : String
  users : List String
deriving DecidableEq

/-- `dict.update(team_details)` on a team record: every key present in
the details overwrites the stored field, absent keys leave it alone. -/
def applyTeamDetails (t : Team) (d : TeamDetails) : Team :=
  { name := d.name.getD t.name
    description := d.description.getD t.description
    creation_time := d.creation_time.getD t.creation_time
    admin := d.admin.getD t.admin
    users := d.users.getD t.users }

/-- `"key" in details and len(details["key"]) > n`, the length guards of
`update_team` / `update_user`. -/
def presentTooLong (o : Option String) (n : Nat) : Bool :=
  match o with
  | some s => n < s.length
  | none => false

/-- `TeamBase.create_team`. Body wrapped in `try/except`: never raises.
`freshId` is the generated `uuid4`, `now` the creation stamp. -/
def create_team (teams : TeamStore) (req : Option CreateTeamReq)
    (freshId now : String) : Except String (TeamStore × Resp) :=
  match req with
  | none => .ok (teams, .err "Failed to create team: malformed request")
  | some d =>
    if 64 < d.name.length then
      .ok (teams, .err "name exceeds 64 characters")
    else if 128 < d.description.length then
      .ok (teams, .err "description exceeds 128 characters")
    else if teams.any (fun kv => kv.2.name == d.name) then
      .ok (teams, .err "team name must be unique")
    else
      .ok (dictInsert teams freshId ⟨d.name, d.description, now, d.admin, []⟩,
           .okId freshId)

/-- `TeamBase.list_teams`. Read-only. -/
def list_teams (teams : TeamStore) : Except String (TeamStore × Resp) :=
  .ok (teams, .teamSummaries
        (teams.map (fun kv => (kv.2.name, kv.2.description, kv.2.creation_time, kv.2.admin))))

/-- `TeamBase.describe_team`. No `try/except`; read-only. -/
def describe_team (teams : TeamStore) (req : Option IdReq) :
    Except String (TeamStore × Resp) :=
  match req with
  | none => .error "describe_team: json.loads/KeyError raised"
  | some d =>
    match dlookup teams d.id with
    | none => .ok (teams, .err "team not found")
    | some t => .ok (teams, .teamInfo t.name t.description t.creation_time t.admin)

/-- `TeamBase.update_team`. No `try/except`; after the guards it calls
`dict.update` with the request's whole `team` object. -/
def update_team (teams : TeamStore) (req : Option UpdateTeamReq) :
    Except String (TeamStore × Resp) :=
  match req with
  | none => .error "update_team: json.loads/KeyError raised"
  | some d =>
    match dlookup teams d.id with
    | none => .ok (teams, .err "team not found")
    | some t =>
      if presentTooLong d.team.name 64 then
        .ok (teams, .err "name exceeds 64 characters")
      else if presentTooLong d.team.description 128 then
        .ok (teams, .err "description exceeds 128 characters")
      else if match d.team.name with
              | some n => teams.any (fun kv => kv.1 != d.id && kv.2.name == n)
              | none => false then
        .ok (teams, .err "team name must be unique")
      else
        .ok (dictInsert teams d.id (applyTeamDetails t d.team), .success)

/-- `TeamBase.add_users_to_team`. No `try/except`; validates every
requested id against the user store, checks the 50-member ceiling on
current size plus batch size, then extends and deduplicates via
`list(set(...))`. -/
def add_users_to_team (teams : TeamStore) (users : UserStore)
    (req : Option TeamUsersReq) : Except String (TeamStore × Resp) :=
  match req with
  | none => .error "add_users_to_team: json.loads/KeyError raised"
  | some d =>
    match dlookup teams d.id with
    | none => .ok (teams, .err "team not found")
    | some t =>
      let invalid := d.users.filter (fun uid => (dlookup users uid).isNone)
      if invalid ≠ [] then
        .ok (teams, .err ("Invalid user IDs: " ++ String.intercalate ", " invalid))
      else if 50 < t.users.length + d.users.length then
        .ok (teams, .err "adding these users exceeds the maximum of 50 users")
      else
        .ok (dictInsert teams d.id { t with users := (t.users ++ d.users).dedup },
             .success)

/-- `TeamBase.remove_users_from_team`. No `try/except`; keeps the
members not named in the request (removing a non-member is a no-op). -/
def remove_users_from_team (teams : TeamStore) (req : Option TeamUsersReq) :
    Except String (TeamStore × Resp) :=
  match req with
  | none => .error "remove_users_from_team: json.loads/KeyError raised"
  | some d =>
    match dlookup teams d.id with
    | none => .ok (teams, .err "team not found")
    | some t =>
      .ok (dictInsert teams d.id
            { t with users := t.users.filter (fun uid => ¬ d.users.contains uid) },
           .success)

/-- Helper of `list_team_users`: join member ids against the user store;
`none` when some member id is unknown (`self.users[user_id]` raises). -/
def collectMembers (users : UserStore) : List String →
    Option (List (String × String × String))
  | [] => some []
  | uid :: rest =>
    match dlookup users uid with
    | none => none
    | some u => (collectMembers users rest).map ((uid, u.name, u.display_name) :: ·)

/-- `TeamBase.list_team_users`. No `try/except`; read-only, raises when a
member id is missing from the user store. -/
def list_team_users (teams : TeamStore) (users : UserStore) (req : Option IdReq) :
    Except String (TeamStore × Resp) :=
  match req with
  | none => .error "list_team_users: json.loads/KeyError raised"
  | some d =>
    match dlookup teams d.id with
    | none => .ok (teams, .err "team not found")
    | some t =>
      match collectMembers users t.users with
      | none => .error "list_team_users: KeyError raised"
      | some l => .ok (teams, .memberListing l)

/-- One invocation of a `TeamBase` operation with its nondeterministic
inputs. `TeamBase` never writes the user store, so `self.users` is a
fixed parameter of the step function. -/
inductive TOp where
  | create (req : Option CreateTeamReq) (freshId now : String)
  | listT
  | describe (req : Option IdReq)
  | update (req : Option UpdateTeamReq)
  | addUsers (req : Option TeamUsersReq)
  | removeUsers (req : Option TeamUsersReq)
  | listUsers (req : Option IdReq)
deriving DecidableEq

/-- Run one team operation. -/
def runTOp (users : UserStore) (teams : TeamStore) : TOp → Except String (TeamStore × Resp)
  | .create req fid now => create_team teams req fid now
  | .listT => list_teams teams
  | .describe req => describe_team teams req
  | .update req => update_team teams req
  | .addUsers req => add_users_to_team teams users req
  | .removeUsers req => remove_users_from_team teams req
  | .listUsers req => list_team_users teams users req

/-- State after one team operation; an escaping exception leaves the
in-memory dict unchanged (raises happen before mutation). -/
def applyTOp (users : UserStore) (teams : TeamStore) (op : TOp) : TeamStore :=
  match runTOp users teams op with
  | .ok (teams', _) => teams'
  | .error _ => teams

/-- State after a sequence of team operations. -/
def applyTOps (users : UserStore) : TeamStore → List TOp → TeamStore
  | s, [] => s
  | s, op :: ops => applyTOps users (applyTOp users s op) ops

/-- Operations whose `update_team` request carries no `users` key
(`dict.update` then leaves membership alone); every other operation
satisfies this trivially. -/
def noUsersKey : TOp → Bool
  | .update (some r) => r.team.users.isNone
  | _ => true

/-- Parsed request of `create_user`. -/
structure CreateUserReq where
  name : String
  display_name : String
deriving DecidableEq

/-- The `"user"` object of an `update_user` request: `dict.update`
applies exactly the keys present. A present `name` key is rejected
before any mutation. -/
structure UserDetails where
  name : Option String
  display_name : Option String
  creation_time : Option String
deriving DecidableEq

/-- Parsed request of `update_user`. -/
structure UpdateUserReq where
  id : String
  user : UserDetails
deriving DecidableEq

/-- `dict.update(user_details)` on a user record. -/
def applyUserDetails (u : User) (d : UserDetails) : User :=
  { name := d.name.getD u.name
    display_name := d.display_name.getD u.display_name
    creation_time := d.creation_time.getD u.creation_time }

/-- `UserBase.create_user`. Body wrapped in `try/except`: never
raises. -/
def create_user (users : UserStore) (req : Option CreateUserReq)
    (freshId now : String) : Except String (UserStore × Resp) :=
  match req with
  | none => .ok (users, .err "Failed to create user: malformed request")
  | some d =>
    if 64 < d.name.length then
      .ok (users, .err "name exceeds 64 characters")
    else if 64 < d.display_name.length then
      .ok (users, .err "display_name exceeds 64 characters")
    else if users.any (fun kv => kv.2.name == d.name) then
      .ok (users, .err "user name must be unique")
    else
      .ok (dictInsert users freshId ⟨d.name, d.display_name, now⟩, .okId freshId)

/-- `UserBase.update_user`. No `try/except`; rejects a present `name`
key, bounds a present `display_name`, then applies `dict.update`. -/
def update_user (users : UserStore) (req : Option UpdateUserReq) :
    Except String (UserStore × Resp) :=
  match req with
  | none => .error "update_user: json.loads/KeyError raised"
  | some d =>
    match dlookup users d.id with
    | none => .ok (users, .err "user not found")
    | some u =>
      if d.user.name.isSome then
        .ok (users, .err "user name cannot be updated")
      else if presentTooLong d.user.display_name 64 then
        .ok (users, .err "display_name exceeds 64 characters")
      else
        .ok (dictInsert users d.id (applyUserDetails u d.user), .success)

/-- Dict assignment then lookup: the assigned key reads back the new
value, every other key is untouched. -/
theorem dlookup_dictInsert {α : Type} (s : List (String × α)) (k id : String) (v : α) :
    dlookup (dictInsert s k v) id = if k = id then some v else dlookup s id := by
  induction s with
  | nil => simp [dictInsert, dlookup]
  | cons hd tl ih =>
    obtain ⟨k', v'⟩ := hd
    by_cases h : k' = k
    · subst h
      by_cases h1 : k' = id
      · subst h1
        simp [dictInsert, dlookup]
      · simp [dictInsert, dlookup, h1]
    · by_cases h1 : k' = id
      · subst h1
        have hk : ¬ k = k' := fun he => h he.symm
        simp [dictInsert, dlookup, h, hk]
      · simp [dictInsert, dlookup, h, h1, ih]

/-- C1. `close_board` on a parsed request: unknown board id yields the
not-found error; an all-COMPLETE (possibly empty) task list yields
success, status CLOSED and a stamped `end_time`; any incomplete task
yields the state error with the store returned unchanged. -/
theorem close_board_spec (boards : BoardStore) (r : IdReq) (now : String) :
    (dlookup boards r.id = none →
      close_board boards (some r) now = .ok (boards, .err "board not found")) ∧
    (∀ b, dlookup boards r.id = some b →
      ((∀ t ∈ b.tasks, t.status = "COMPLETE") →
        close_board boards (some r) now =
          .ok (dictInsert boards r.id { b with status := "CLOSED", end_time := some now },
               .success)) ∧
      ((∃ t ∈ b.tasks, t.status ≠ "COMPLETE") →
        close_board boards (some r) now =
          .ok (boards, .err "cannot close board with incomplete tasks"))) := by
  refine ⟨fun h => by simp [close_board, h], fun b hb => ⟨fun hall => ?_, fun hex => ?_⟩⟩
  · have hany : b.tasks.any (fun t => t.status != "COMPLETE") = false := by
      simp only [List.any_eq_false, bne_iff_ne, ne_eq, not_not]
      exact hall
    simp [close_board, hb, hany]
  · have hany : b.tasks.any (fun t => t.status != "COMPLETE") = true := by
      simp only [List.any_eq_true, bne_iff_ne]
      exact hex
    simp [close_board, hb, hany]

/-- Witness for C1 at a concrete store: closing a one-board store with
no tasks succeeds and stamps the board CLOSED. -/
theorem close_board_spec_witness :
    close_board [("b1", ⟨"B", "d", "t", "T0", "OPEN", [], none⟩)] (some ⟨"b1"⟩) "T1" =
      .ok (dictInsert [("b1", ⟨"B", "d", "t", "T0", "OPEN", [], none⟩)] "b1"
            ⟨"B", "d", "t", "T0", "CLOSED", [], some "T1"⟩, .success) :=
  ((close_board_spec [("b1", ⟨"B", "d", "t", "T0", "OPEN", [], none⟩)] ⟨"b1"⟩ "T1").2
    ⟨"B", "d", "t", "T0", "OPEN", [], none⟩ rfl).1 (by simp)

/-- C5. `add_task` with in-bound field lengths on an existing board
whose status is not OPEN returns the state error and the unchanged
store: nothing is ever appended to a closed board. -/
theorem add_task_not_open (boards : BoardStore) (r : AddTaskReq) (b : Board) (fid : String)
    (ht : r.title.length ≤ 64) (hd : r.description.length ≤ 128)
    (hb : dlookup boards r.board_id = some b) (hs : b.status ≠ "OPEN") :
    add_task boards (some r) fid = .ok (boards, .err "can only add tasks to an OPEN board") := by
  have hbne : (b.status != "OPEN") = true := by simp [bne_iff_ne, hs]
  simp [add_task, hb, hbne, Nat.not_lt.mpr ht, Nat.not_lt.mpr hd]

/-- Witness for C5: adding to a CLOSED board is rejected. -/
theorem add_task_not_open_witness :
    add_task [("b1", ⟨"B", "d", "t", "T0", "CLOSED", [], some "T1"⟩)]
        (some ⟨"T", "d", "u", "T2", "b1"⟩) "k1" =
      .ok ([("b1", ⟨"B", "d", "t", "T0", "CLOSED", [], some "T1"⟩)],
           .err "can only add tasks to an OPEN board") :=
  add_task_not_open [("b1", ⟨"B", "d", "t", "T0", "CLOSED", [], some "T1"⟩)]
    ⟨"T", "d", "u", "T2", "b1"⟩ ⟨"B", "d", "t", "T0", "CLOSED", [], some "T1"⟩ "k1"
    (by decide) (by decide) rfl (by decide)

/-- C6. `create_board` with in-bound field lengths conflicts exactly
when an existing board carries the same name and the same team id;
otherwise — in particular when the name is taken only under other
teams — it succeeds and returns the fresh identifier. -/
theorem create_board_conflict_iff (boards : BoardStore) (r : CreateBoardReq) (fid : String)
    (hn : r.name.length ≤ 64) (hd : r.description.length ≤ 128) :
    ((∃ p ∈ boards, p.2.name = r.name ∧ p.2.team_id = r.team_id) →
      create_board boards (some r) fid =
        .ok (boards, .err "board name must be unique for a team")) ∧
    ((∀ p ∈ boards, p.2.name = r.name → p.2.team_id ≠ r.team_id) →
      create_board boards (some r) fid =
        .ok (dictInsert boards fid
              ⟨r.name, r.description, r.team_id, r.creation_time, "OPEN", [], none⟩,
             .okId fid)) := by
  constructor
  · intro hex
    have hany : boards.any (fun kv => kv.2.name == r.name && kv.2.team_id == r.team_id) = true := by
      simp only [List.any_eq_true, Bool.and_eq_true, beq_iff_eq]
      exact hex
    simp [create_board, hany, Nat.not_lt.mpr hn, Nat.not_lt.mpr hd]
  · intro hall
    have hany : boards.any (fun kv => kv.2.name == r.name && kv.2.team_id == r.team_id) = false := by
      simp only [List.any_eq_false, Bool.and_eq_true, beq_iff_eq, not_and]
      exact hall
    simp [create_board, hany, Nat.not_lt.mpr hn, Nat.not_lt.mpr hd]

/-- Witness for C6: the same board name under a different team id is
accepted and the fresh id is returned. -/
theorem create_board_conflict_iff_witness :
    create_board [("b1", ⟨"B", "d", "t1", "T0", "OPEN", [], none⟩)]
        (some ⟨"B", "d", "t2", "T1"⟩) "b2" =
      .ok (dictInsert [("b1", ⟨"B", "d", "t1", "T0", "OPEN", [], none⟩)] "b2"
            ⟨"B", "d", "t2", "T1", "OPEN", [], none⟩, .okId "b2") :=
  (create_board_conflict_iff [("b1", ⟨"B", "d", "t1", "T0", "OPEN", [], none⟩)]
    ⟨"B", "d", "t2", "T1"⟩ "b2" (by decide) (by decide)).2 (by decide)

/-- C7. `add_task` with in-bound field lengths on an existing OPEN board
conflicts exactly when that board already holds a task with the same
title; otherwise it succeeds, appending the new task at the end of the
board's task sequence (titles in other boards are never consulted). -/
theorem add_task_title_unique (boards : BoardStore) (r : AddTaskReq) (b : Board) (fid : String)
    (ht : r.title.length ≤ 64) (hd : r.description.length ≤ 128)
    (hb : dlookup boards r.board_id = some b) (ho : b.status = "OPEN") :
    ((∃ t ∈ b.tasks, t.title = r.title) →
      add_task boards (some r) fid =
        .ok (boards, .err "task title must be unique for a board")) ∧
    ((∀ t ∈ b.tasks, t.title ≠ r.title) →
      add_task boards (some r) fid =
        .ok (dictInsert boards r.board_id
              { b with tasks := b.tasks ++
                  [⟨fid, r.title, r.description, r.user_id, r.creation_time, "OPEN"⟩] },
             .okId fid)) := by
  have hopen : (b.status != "OPEN") = false := by simp [bne_iff_ne, ho]
  constructor
  · intro hex
    have hany : b.tasks.any (fun t => t.title == r.title) = true := by
      simp only [List.any_eq_true, beq_iff_eq]
      exact hex
    simp [add_task, hb, hopen, hany, Nat.not_lt.mpr ht, Nat.not_lt.mpr hd]
  · intro hall
    have hany : b.tasks.any (fun t => t.title == r.title) = false := by
      simp only [List.any_eq_false, beq_iff_eq]
      exact hall
    simp [add_task, hb, hopen, hany, Nat.not_lt.mpr ht, Nat.not_lt.mpr hd]

/-- Witness for C7: a title already present only in another board is
accepted and appended at the end of the target board's task list. -/
theorem add_task_title_unique_witness :
    add_task [("b1", ⟨"B1", "d", "t", "T0", "OPEN",
                 [⟨"k0", "T", "d", "u", "T0", "OPEN"⟩], none⟩),
              ("b2", ⟨"B2", "d", "t", "T0", "OPEN", [], none⟩)]
        (some ⟨"T", "d", "u", "T2", "b2"⟩) "k1" =
      .ok (dictInsert [("b1", ⟨"B1", "d", "t", "T0", "OPEN",
                          [⟨"k0", "T", "d", "u", "T0", "OPEN"⟩], none⟩),
                       ("b2", ⟨"B2", "d", "t", "T0", "OPEN", [], none⟩)] "b2"
            ⟨"B2", "d", "t", "T0", "OPEN", [⟨"k1", "T", "d", "u", "T2", "OPEN"⟩], none⟩,
           .okId "k1") :=
  (add_task_title_unique [("b1", ⟨"B1", "d", "t", "T0", "OPEN",
      [⟨"k0", "T", "d", "u", "T0", "OPEN"⟩], none⟩),
    ("b2", ⟨"B2", "d", "t", "T0", "OPEN", [], none⟩)]
    ⟨"T", "d", "u", "T2", "b2"⟩ ⟨"B2", "d", "t", "T0", "OPEN", [], none⟩ "k1"
    (by decide) (by decide) rfl rfl).2 (by decide)

/-- C9. `update_user` on an existing user: a request whose `user` object
carries a `name` key is rejected with the immutability error, and a
present `display_name` longer than 64 characters is rejected with an
error; in both cases the store is returned unchanged. -/
theorem update_user_guards (users : UserStore) (r : UpdateUserReq) (u : User)
    (hu : dlookup users r.id = some u) :
    (r.user.name.isSome = true →
      update_user users (some r) = .ok (users, .err "user name cannot be updated")) ∧
    (∀ dn, r.user.display_name = some dn → 64 < dn.length →
      ∃ msg, update_user users (some r) = .ok (users, .err msg)) := by
  constructor
  · intro hname
    simp [update_user, hu, hname]
  · intro dn hdn hlen
    by_cases hname : r.user.name.isSome
    · exact ⟨"user name cannot be updated", by simp [update_user, hu, hname]⟩
    · refine ⟨"display_name exceeds 64 characters", ?_⟩
      have hlong : presentTooLong r.user.display_name 64 = true := by
        simp [presentTooLong, hdn, hlen]
      simp [update_user, hu, hname, hlong]

/-- Witness for C9: a 65-character display name on an existing user is
rejected. -/
theorem update_user_guards_witness :
    ∃ msg,
      update_user [("u1", ⟨"john", "J", "T0"⟩)]
          (some ⟨"u1", ⟨none,
            some "aaaaaaaaaaaaaaaaaaaaaaaaaaaaaaaaaaaaaaaaaaaaaaaaaaaaaaaaaaaaaaaaa",
            none⟩⟩) =
        .ok ([("u1", ⟨"john", "J", "T0"⟩)], .err msg) :=
  (update_user_guards [("u1", ⟨"john", "J", "T0"⟩)]
    ⟨"u1", ⟨none,
      some "aaaaaaaaaaaaaaaaaaaaaaaaaaaaaaaaaaaaaaaaaaaaaaaaaaaaaaaaaaaaaaaaa",
      none⟩⟩ ⟨"john", "J", "T0"⟩ rfl).2
    "aaaaaaaaaaaaaaaaaaaaaaaaaaaaaaaaaaaaaaaaaaaaaaaaaaaaaaaaaaaaaaaaa" rfl (by decide)

/-- C2 counterexample. `close_board` has no `try/except`: on a request
that `json.loads` cannot parse (or that lacks the `id` field) the
exception escapes to the caller instead of an `error` response. -/
theorem close_board_raises_counterexample :
    close_board [] none "T0" = Except.error "close_board: json.loads/KeyError raised" := rfl

/-- C2 amended. The four creation-side operations whose bodies sit in
`try/except` — `create_board`, `add_task`, `create_team`,
`create_user` — always return a response and never raise, on every
store and every request, malformed ones included. -/
theorem wrapped_creation_ops_never_raise (boards : BoardStore) (teams : TeamStore)
    (users : UserStore) (r1 : Option CreateBoardReq) (r2 : Option AddTaskReq)
    (r3 : Option CreateTeamReq) (r4 : Option CreateUserReq) (fid now : String) :
    (∃ out, create_board boards r1 fid = .ok out) ∧
    (∃ out, add_task boards r2 fid = .ok out) ∧
    (∃ out, create_team teams r3 fid now = .ok out) ∧
    (∃ out, create_user users r4 fid now = .ok out) := by
  refine ⟨?_, ?_, ?_, ?_⟩
  · cases r1 with
    | none => exact ⟨_, rfl⟩
    | some d =>
      simp only [create_board]
      repeat' split
      all_goals exact ⟨_, rfl⟩
  · cases r2 with
    | none => exact ⟨_, rfl⟩
    | some d =>
      simp only [add_task]
      repeat' split
      all_goals exact ⟨_, rfl⟩
  · cases r3 with
    | none => exact ⟨_, rfl⟩
    | some d =>
      simp only [create_team]
      repeat' split
      all_goals exact ⟨_, rfl⟩
  · cases r4 with
    | none => exact ⟨_, rfl⟩
    | some d =>
      simp only [create_user]
      repeat' split
      all_goals exact ⟨_, rfl⟩

/-- C3 counterexample. `update_team` ends in `dict.update(team_details)`,
so a request whose `team` object carries an `admin` key rewrites the
stored admin: here from `alice` to `mallory`. -/
theorem update_team_admin_mutation_counterexample :
    update_team [("t1", ⟨"T", "d", "T0", "alice", []⟩)]
        (some ⟨"t1", ⟨none, none, none, some "mallory", none⟩⟩) =
      .ok ([("t1", ⟨"T", "d", "T0", "mallory", []⟩)], .success) ∧
    ("mallory" : String) ≠ "alice" := by
  exact ⟨rfl, by decide⟩

/-- C3 amended. When the `team` object of an `update_team` request on an
existing team carries neither an `admin` nor a `users` key, the stored
admin and membership survive the call unchanged, whatever the outcome. -/
theorem update_team_frame (teams : TeamStore) (r : UpdateTeamReq) (t : Team)
    (h : dlookup teams r.id = some t) (ha : r.team.admin = none)
    (hu : r.team.users = none) :
    ∀ out, update_team teams (some r) = .ok out →
      ∃ t', dlookup out.1 r.id = some t' ∧ t'.admin = t.admin ∧ t'.users = t.users := by
  intro out hout
  simp only [update_team, h] at hout
  split_ifs at hout with h1 h2 h3
  · rw [Except.ok.injEq] at hout
    subst hout
    exact ⟨t, h, rfl, rfl⟩
  · rw [Except.ok.injEq] at hout
    subst hout
    exact ⟨t, h, rfl, rfl⟩
  · rw [Except.ok.injEq] at hout
    subst hout
    exact ⟨t, h, rfl, rfl⟩
  · rw [Except.ok.injEq] at hout
    subst hout
    refine ⟨applyTeamDetails t r.team, ?_, ?_, ?_⟩
    · rw [dlookup_dictInsert]
      simp
    · simp [applyTeamDetails, ha]
    · simp [applyTeamDetails, hu]

/-- Witness for the amended C3: renaming a team leaves admin and
membership as they were. -/
theorem update_team_frame_witness :
    ∃ t', dlookup [("t1", (⟨"N", "d", "T0", "alice", []⟩ : Team))] "t1" = some t' ∧
      t'.admin = "alice" ∧ t'.users = ([] : List String) :=
  update_team_frame [("t1", ⟨"T", "d", "T0", "alice", []⟩)]
    ⟨"t1", ⟨some "N", none, none, none, none⟩⟩ ⟨"T", "d", "T0", "alice", []⟩
    rfl rfl rfl ([("t1", ⟨"N", "d", "T0", "alice", []⟩)], .success) rfl

/-- A key just assigned reads back the assigned value; other keys keep
their bound, so a bound on every stored team's roster survives one dict
assignment of a bounded value. -/
theorem capBound_insert (teams : TeamStore) (k : String) (v : Team)
    (hv : v.users.length ≤ 50)
    (hinv : ∀ id t, dlookup teams id = some t → t.users.length ≤ 50) :
    ∀ id t, dlookup (dictInsert teams k v) id = some t → t.users.length ≤ 50 := by
  intro id t ht
  rw [dlookup_dictInsert] at ht
  split_ifs at ht
  · rw [Option.some.injEq] at ht
    subst ht
    exact hv
  · exact hinv id t ht

/-- One team operation with no `users` key in its `update_team` request
preserves the 50-member bound on every stored team. -/
theorem capBound_applyTOp (users : UserStore) (teams : TeamStore) (op : TOp)
    (hop : noUsersKey op = true)
    (hinv : ∀ id t, dlookup teams id = some t → t.users.length ≤ 50) :
    ∀ id t, dlookup (applyTOp users teams op) id = some t → t.users.length ≤ 50 := by
  cases op with
  | create req fid now =>
    cases req with
    | none => simpa [applyTOp, runTOp, create_team] using hinv
    | some d =>
      by_cases h1 : 64 < d.name.length
      · simpa [applyTOp, runTOp, create_team, h1] using hinv
      by_cases h2 : 128 < d.description.length
      · simpa [applyTOp, runTOp, create_team, h1, h2] using hinv
      by_cases h3 : teams.any (fun kv => kv.2.name == d.name) = true
      · simpa [applyTOp, runTOp, create_team, h1, h2, h3] using hinv
      · have hins := capBound_insert teams fid ⟨d.name, d.description, now, d.admin, []⟩
          (by simp) hinv
        simpa [applyTOp, runTOp, create_team, h1, h2, h3] using hins
  | listT => simpa [applyTOp, runTOp, list_teams] using hinv
  | describe req =>
    cases req with
    | none => simpa [applyTOp, runTOp, describe_team] using hinv
    | some d =>
      rcases hq : dlookup teams d.id with _ | t0 <;>
        simpa [applyTOp, runTOp, describe_team, hq] using hinv
  | update req =>
    cases req with
    | none => simpa [applyTOp, runTOp, update_team] using hinv
    | some r =>
      have hnone : r.team.users = none := by
        simpa [noUsersKey, Option.isNone_iff_eq_none] using hop
      rcases hq : dlookup teams r.id with _ | t0
      · simpa [applyTOp, runTOp, update_team, hq] using hinv
      by_cases h1 : presentTooLong r.team.name 64 = true
      · simpa [applyTOp, runTOp, update_team, hq, h1] using hinv
      by_cases h2 : presentTooLong r.team.description 128 = true
      · simpa [applyTOp, runTOp, update_team, hq, h1, h2] using hinv
      by_cases h3 : (match r.team.name with
                     | some n => teams.any (fun kv => kv.1 != r.id && kv.2.name == n)
                     | none => false) = true
      · simpa [applyTOp, runTOp, update_team, hq, h1, h2, h3] using hinv
      · have hval : (applyTeamDetails t0 r.team).users.length ≤ 50 := by
          simpa [applyTeamDetails, hnone] using hinv r.id t0 hq
        have hins := capBound_insert teams r.id (applyTeamDetails t0 r.team) hval hinv
        simpa [applyTOp, runTOp, update_team, hq, h1, h2, h3] using hins
  | addUsers req =>
    cases req with
    | none => simpa [applyTOp, runTOp, add_users_to_team] using hinv
    | some d =>
      rcases hq : dlookup teams d.id with _ | t0
      · simpa [applyTOp, runTOp, add_users_to_team, hq] using hinv
      by_cases h1 : d.users.filter (fun uid => (dlookup users uid).isNone) ≠ []
      · simpa [applyTOp, runTOp, add_users_to_team, hq, h1] using hinv
      by_cases h2 : 50 < t0.users.length + d.users.length
      · simpa [applyTOp, runTOp, add_users_to_team, hq, h1, h2] using hinv
      · have hval : ((t0.users ++ d.users).dedup).length ≤ 50 := by
          have hsub := (List.dedup_sublist (t0.users ++ d.users)).length_le
          rw [List.length_append] at hsub
          omega
        have hins := capBound_insert teams d.id { t0 with users := (t0.users ++ d.users).dedup }
          hval hinv
        simpa [applyTOp, runTOp, add_users_to_team, hq, h1, h2] using hins
  | removeUsers req =>
    cases req with
    | none => simpa [applyTOp, runTOp, remove_users_from_team] using hinv
    | some d =>
      rcases hq : dlookup teams d.id with _ | t0
      · simpa [applyTOp, runTOp, remove_users_from_team, hq] using hinv
      · have hval : (t0.users.filter (fun uid => ¬ d.users.contains uid)).length ≤ 50 :=
          le_trans (List.length_filter_le _ _) (hinv d.id t0 hq)
        have hins := capBound_insert teams d.id
          { t0 with users := t0.users.filter (fun uid => ¬ d.users.contains uid) } hval hinv
        simpa [applyTOp, runTOp, remove_users_from_team, hq] using hins
  | listUsers req =>
    cases req with
    | none => simpa [applyTOp, runTOp, list_team_users] using hinv
    | some d =>
      rcases hq : dlookup teams d.id with _ | t0
      · simpa [applyTOp, runTOp, list_team_users, hq] using hinv
      · rcases hc : collectMembers users t0.users with _ | l <;>
          simpa [applyTOp, runTOp, list_team_users, hq, hc] using hinv

/-- The 50-member bound is preserved along any trace of team operations
whose `update_team` requests carry no `users` key. -/
theorem capBound_applyTOps (users : UserStore) (teams : TeamStore) (ops : List TOp)
    (hops : ops.all noUsersKey = true)
    (hinv : ∀ id t, dlookup teams id = some t → t.users.length ≤ 50) :
    ∀ id t, dlookup (applyTOps users teams ops) id = some t → t.users.length ≤ 50 := by
  induction ops generalizing teams with
  | nil => simpa [applyTOps] using hinv
  | cons op rest ih =>
    rw [List.all_cons, Bool.and_eq_true] at hops
    exact ih (applyTOp users teams op) hops.2 (capBound_applyTOp users teams op hops.1 hinv)

/-- C8 counterexample. The cap is not a reachable-state invariant:
create a team, then `update_team` with a `users` key of 51 fresh ids —
`dict.update` installs all 51 members with no ceiling check. -/
theorem team_cap_counterexample :
    (dlookup (applyTOps [] []
        [.create (some ⟨"T", "d", "alice"⟩) "t1" "T0",
         .update (some ⟨"t1", ⟨none, none, none, none,
           some ((List.range 51).map (fun n => "u" ++ toString n))⟩⟩)])
        "t1").map (fun t => t.users.length) = some 51 ∧ ¬ (51 ≤ 50) := by
  exact ⟨rfl, by decide⟩

/-- C8 amended. Along every trace of team operations from the empty
store whose `update_team` requests never carry a `users` key, every
stored team has at most 50 members; and a failing `add_users_to_team`
(unknown ids or cap overrun) returns the team store exactly as it was —
no partial addition. -/
theorem team_cap_amended (users : UserStore) (ops : List TOp)
    (hops : ops.all noUsersKey = true) :
    (∀ id t, dlookup (applyTOps users [] ops) id = some t → t.users.length ≤ 50) ∧
    (∀ teams r teams' msg,
      add_users_to_team teams users (some r) = .ok (teams', .err msg) → teams' = teams) := by
  constructor
  · exact capBound_applyTOps users [] ops hops (fun id t ht => by simp [dlookup] at ht)
  · intro teams r teams' msg hcall
    rcases hq : dlookup teams r.id with _ | t0
    · simp only [add_users_to_team, hq] at hcall
      rw [Except.ok.injEq, Prod.mk.injEq] at hcall
      exact hcall.1.symm
    · simp only [add_users_to_team, hq] at hcall
      split_ifs at hcall with h1 h2
      · rw [Except.ok.injEq, Prod.mk.injEq] at hcall
        exact hcall.1.symm
      · rw [Except.ok.injEq, Prod.mk.injEq] at hcall
        exact hcall.1.symm
      · rw [Except.ok.injEq, Prod.mk.injEq] at hcall
        exact absurd hcall.2 (by simp)

/-- Witness for the amended C8: after one `create_team` the stored roster
is within the cap. -/
theorem team_cap_amended_witness :
    (⟨"T", "d", "T0", "alice", []⟩ : Team).users.length ≤ 50 :=
  (team_cap_amended [] [.create (some ⟨"T", "d", "alice"⟩) "t1" "T0"] rfl).1 "t1"
    ⟨"T", "d", "T0", "alice", []⟩ rfl

/-- `update_task_status` rewrites at most one task's status: every board
id that resolved before still resolves to the same record up to its task
list. -/
theorem updateBoards_dlookup (tid st : String) (boards boards' : BoardStore)
    (h : updateBoards boards tid st = some boards') (id : String) (b : Board)
    (hb : dlookup boards id = some b) :
    ∃ ts, dlookup boards' id = some { b with tasks := ts } := by
  induction boards generalizing boards' with
  | nil => simp [updateBoards] at h
  | cons hd rest ih =>
    obtain ⟨k, b0⟩ := hd
    simp only [updateBoards] at h
    rcases hs : setFirstTask b0.tasks tid st with _ | ts0 <;> rw [hs] at h
    · rcases hr : updateBoards rest tid st with _ | rest' <;> rw [hr] at h
      · simp at h
      · simp only [Option.map_some', Option.some.injEq] at h
        subst h
        by_cases hk : k = id
        · subst hk
          rw [dlookup, if_pos rfl, Option.some.injEq] at hb
          refine ⟨b.tasks, ?_⟩
          rw [dlookup, if_pos rfl, hb]
        · rw [dlookup, if_neg hk] at hb
          obtain ⟨ts, hts⟩ := ih rest' hr hb
          exact ⟨ts, by rw [dlookup, if_neg hk]; exact hts⟩
    · simp only [Option.some.injEq] at h
      subst h
      by_cases hk : k = id
      · subst hk
        rw [dlookup, if_pos rfl, Option.some.injEq] at hb
        refine ⟨ts0, ?_⟩
        rw [dlookup, if_pos rfl, hb]
      · rw [dlookup, if_neg hk] at hb
        exact ⟨b.tasks, by rw [dlookup, if_neg hk]; exact hb⟩

/-- No single board operation moves an existing board out of CLOSED
(`uuid4` freshness assumed for `create_board`). -/
theorem applyBOp_closed (s : BoardStore) (op : BOp) (id : String) (b : Board)
    (hf : freshOk s op = true) (hb : dlookup s id = some b) (hc : b.status = "CLOSED") :
    ∃ b', dlookup (applyBOp s op) id = some b' ∧ b'.status = "CLOSED" := by
  cases op with
  | create req fid =>
    cases req with
    | none => exact ⟨b, by simpa [applyBOp, runBOp, create_board] using hb, hc⟩
    | some d =>
      have hfid : dlookup s fid = none := by
        simpa [freshOk, Option.isNone_iff_eq_none] using hf
      by_cases h1 : 64 < d.name.length
      · exact ⟨b, by simpa [applyBOp, runBOp, create_board, h1] using hb, hc⟩
      by_cases h2 : 128 < d.description.length
      · exact ⟨b, by simpa [applyBOp, runBOp, create_board, h1, h2] using hb, hc⟩
      by_cases h3 : s.any (fun kv => kv.2.name == d.name && kv.2.team_id == d.team_id) = true
      · exact ⟨b, by simpa [applyBOp, runBOp, create_board, h1, h2, h3] using hb, hc⟩
      · have hne : fid ≠ id := by
          intro he
          rw [he, hb] at hfid
          cases hfid
        refine ⟨b, ?_, hc⟩
        simp [applyBOp, runBOp, create_board, h1, h2, h3, dlookup_dictInsert, hne, hb]
  | close req now =>
    cases req with
    | none => exact ⟨b, by simpa [applyBOp, runBOp, close_board] using hb, hc⟩
    | some d =>
      rcases hq : dlookup s d.id with _ | b0
      · exact ⟨b, by simpa [applyBOp, runBOp, close_board, hq] using hb, hc⟩
      by_cases hany : b0.tasks.any (fun t => t.status != "COMPLETE") = true
      · exact ⟨b, by simpa [applyBOp, runBOp, close_board, hq, hany] using hb, hc⟩
      by_cases hk : d.id = id
      · subst hk
        refine ⟨{ b0 with status := "CLOSED", end_time := some now }, ?_, rfl⟩
        simp [applyBOp, runBOp, close_board, hq, hany, dlookup_dictInsert]
      · refine ⟨b, ?_, hc⟩
        simp [applyBOp, runBOp, close_board, hq, hany, dlookup_dictInsert, hk, hb]
  | addTask req fid =>
    cases req with
    | none => exact ⟨b, by simpa [applyBOp, runBOp, add_task] using hb, hc⟩
    | some d =>
      by_cases h1 : 64 < d.title.length
      · exact ⟨b, by simpa [applyBOp, runBOp, add_task, h1] using hb, hc⟩
      by_cases h2 : 128 < d.description.length
      · exact ⟨b, by simpa [applyBOp, runBOp, add_task, h1, h2] using hb, hc⟩
      rcases hq : dlookup s d.board_id with _ | b0
      · exact ⟨b, by simpa [applyBOp, runBOp, add_task, h1, h2, hq] using hb, hc⟩
      by_cases hst : (b0.status != "OPEN") = true
      · exact ⟨b, by simpa [applyBOp, runBOp, add_task, h1, h2, hq, hst] using hb, hc⟩
      by_cases hdup : b0.tasks.any (fun t => t.title == d.title) = true
      · exact ⟨b, by simpa [applyBOp, runBOp, add_task, h1, h2, hq, hst, hdup] using hb, hc⟩
      · have hopen : b0.status = "OPEN" := by
          simpa [bne_iff_ne] using hst
        have hk : d.board_id ≠ id := by
          intro he
          rw [he, hb] at hq
          rw [Option.some.injEq] at hq
          rw [← hq, hc] at hopen
          exact absurd hopen (by decide)
        refine ⟨b, ?_, hc⟩
        simp [applyBOp, runBOp, add_task, h1, h2, hq, hst, hdup, dlookup_dictInsert, hk, hb]
  | updStatus req =>
    cases req with
    | none => exact ⟨b, by simpa [applyBOp, runBOp, update_task_status] using hb, hc⟩
    | some r =>
      rcases hu : updateBoards s r.id r.status with _ | s'
      · exact ⟨b, by simpa [applyBOp, runBOp, update_task_status, hu] using hb, hc⟩
      · obtain ⟨ts, hts⟩ := updateBoards_dlookup r.id r.status s s' hu id b hb
        exact ⟨{ b with tasks := ts },
          by simpa [applyBOp, runBOp, update_task_status, hu] using hts, hc⟩
  | listB req =>
    cases req with
    | none => exact ⟨b, by simpa [applyBOp, runBOp, list_boards] using hb, hc⟩
    | some d => exact ⟨b, by simpa [applyBOp, runBOp, list_boards] using hb, hc⟩
  | exportB req =>
    cases req with
    | none => exact ⟨b, by simpa [applyBOp, runBOp, export_board] using hb, hc⟩
    | some d =>
      rcases hq : dlookup s d.id with _ | b0 <;>
        exact ⟨b, by simpa [applyBOp, runBOp, export_board, hq] using hb, hc⟩

/-- C4. Along any operation sequence (with `uuid4` freshness for created
board ids), a board once CLOSED stays present and CLOSED in every later
state: the only status transition is OPEN to CLOSED and CLOSED is
terminal. -/
theorem closed_board_terminal (s : BoardStore) (ops : List BOp) (id : String) (b : Board)
    (hb : dlookup s id = some b) (hc : b.status = "CLOSED")
    (hf : freshTrace s ops = true) :
    ∃ b', dlookup (applyBOps s ops) id = some b' ∧ b'.status = "CLOSED" := by
  induction ops generalizing s b with
  | nil => exact ⟨b, hb, hc⟩
  | cons op rest ih =>
    simp only [freshTrace, Bool.and_eq_true] at hf
    obtain ⟨b', hb', hc'⟩ := applyBOp_closed s op id b hf.1 hb hc
    exact ih (applyBOp s op) b' hb' hc' hf.2

/-- Witness for C4: re-closing an already CLOSED board leaves it
CLOSED. -/
theorem closed_board_terminal_witness :
    ∃ b', dlookup (applyBOps [("b1", ⟨"B", "d", "t", "T0", "CLOSED", [], some "T1"⟩)]
        [.close (some ⟨"b1"⟩) "T2"]) "b1" = some b' ∧ b'.status = "CLOSED" :=
  closed_board_terminal [("b1", ⟨"B", "d", "t", "T0", "CLOSED", [], some "T1"⟩)]
    [.close (some ⟨"b1"⟩) "T2"] "b1" ⟨"B", "d", "t", "T0", "CLOSED", [], some "T1"⟩
    rfl rfl rfl

/-- `setFirstTask` finds a task exactly when the list holds one with the
requested id. -/
theorem setFirstTask_isSome (tasks : List Task) (tid st : String) :
    (setFirstTask tasks tid st).isSome = tasks.any (fun t => t.id == tid) := by
  induction tasks with
  | nil => simp [setFirstTask]
  | cons t ts ih =>
    by_cases h : t.id = tid
    · simp [setFirstTask, h]
    · simp [setFirstTask, h, ih]

/-- `update_task_status`'s scan finds a board exactly when some board's
task list holds a task with the requested id; the board's own status is
never consulted. -/
theorem updateBoards_isSome (boards : BoardStore) (tid st : String) :
    (updateBoards boards tid st).isSome =
      boards.any (fun kv => kv.2.tasks.any (fun t => t.id == tid)) := by
  induction boards with
  | nil => simp [updateBoards]
  | cons hd rest ih =>
    obtain ⟨k, b⟩ := hd
    rcases hs : setFirstTask b.tasks tid st with _ | ts
    · have hany : b.tasks.any (fun t => t.id == tid) = false := by
        have hiff := setFirstTask_isSome b.tasks tid st
        rw [hs] at hiff
        exact hiff.symm.trans rfl

      simp [updateBoards, hs, hany, ih]
    · have hany : b.tasks.any (fun t => t.id == tid) = true := by
        have hiff := setFirstTask_isSome b.tasks tid st
        rw [hs] at hiff
        exact hiff.symm.trans rfl
      simp [updateBoards, hs, hany]

/-- C10. `update_task_status` succeeds for any task id present in any
board, with no check of the containing board's status; concretely, a
board taken through create, add-task, complete, close can have its task
reset to OPEN afterwards, leaving a CLOSED board with an incomplete
task — so "every task of a CLOSED board is COMPLETE" is not preserved
by all operations. -/
theorem update_task_status_ignores_board_state :
    (∀ (boards : BoardStore) (r : UpdateTaskStatusReq),
      (∃ p ∈ boards, ∃ t ∈ p.2.tasks, t.id = r.id) →
      ∃ boards', update_task_status boards (some r) = .ok (boards', .success)) ∧
    dlookup (applyBOps []
        [.create (some ⟨"B", "d", "t", "T0"⟩) "b1",
         .addTask (some ⟨"T1", "d", "u", "T1", "b1"⟩) "k1",
         .updStatus (some ⟨"k1", "COMPLETE"⟩),
         .close (some ⟨"b1"⟩) "T2",
         .updStatus (some ⟨"k1", "OPEN"⟩)]) "b1" =
      some ⟨"B", "d", "t", "T0", "CLOSED",
        [⟨"k1", "T1", "d", "u", "T1", "OPEN"⟩], some "T2"⟩ := by
  constructor
  · intro boards r hex
    have hany : boards.any (fun kv => kv.2.tasks.any (fun t => t.id == r.id)) = true := by
      simp only [List.any_eq_true, beq_iff_eq]
      exact hex
    have hsome := updateBoards_isSome boards r.id r.status
    rw [hany] at hsome
    rcases hu : updateBoards boards r.id r.status with _ | s'
    · rw [hu] at hsome
      simp at hsome
    · exact ⟨s', by simp [update_task_status, hu]⟩
  · rfl

/-- Witness for C10: resetting a COMPLETE task of a CLOSED board to OPEN
succeeds. -/
theorem update_task_status_ignores_board_state_witness :
    ∃ boards', update_task_status
        [("b1", ⟨"B", "d", "t", "T0", "CLOSED",
           [⟨"k1", "T1", "d", "u", "T1", "COMPLETE"⟩], some "T2"⟩)]
        (some ⟨"k1", "OPEN"⟩) = .ok (boards', .success) :=
  update_task_status_ignores_board_state.1
    [("b1", ⟨"B", "d", "t", "T0", "CLOSED",
       [⟨"k1", "T1", "d", "u", "T1", "COMPLETE"⟩], some "T2"⟩)]
    ⟨"k1", "OPEN"⟩ (by decide)

end Planner
